import Mathlib

/-!
Shallow embedding of the KHL statistics parser (`parser.py`):
Python string primitives, the statistics-table parser, season
resolution, search/lookup, and the LRU-cached `get_players`.
Strings are modelled as Lean `String`; Python string operations are
modelled on the underlying character lists at the ASCII/Cyrillic
level (the data the program actually handles).
-/

/-- Whitespace characters stripped by Python `str.strip()` (ASCII subset). -/
def pyIsSpace (c : Char) : Bool :=
  c = ' ' || c = '\t' || c = '\n' || c = '\r' || c = '\x0b' || c = '\x0c'

/-- Remove leading whitespace from a character list. -/
def stripLeft (l : List Char) : List Char :=
  l.dropWhile pyIsSpace

/-- Remove trailing whitespace from a character list. -/
def stripRight (l : List Char) : List Char :=
  (l.reverse.dropWhile pyIsSpace).reverse

/-- Python `str.strip()` on a character list. -/
def stripChars (l : List Char) : List Char :=
  stripRight (stripLeft l)

/-- Python `str.strip()`. -/
def pyStrip (s : String) : String :=
  ⟨stripChars s.data⟩

/-- Case-map one character to lower case, Python `str.lower()` restricted to
the ASCII and Cyrillic letters the scraped pages contain. -/
def pyLowerChar (c : Char) : Char :=
  if 0x41 ≤ c.toNat ∧ c.toNat ≤ 0x5A then Char.ofNat (c.toNat + 0x20)
  else if 0x410 ≤ c.toNat ∧ c.toNat ≤ 0x42F then Char.ofNat (c.toNat + 0x20)
  else if c.toNat = 0x401 then Char.ofNat 0x451
  else c

/-- Case-map one character to upper case (ASCII and Cyrillic letters). -/
def pyUpperChar (c : Char) : Char :=
  if 0x61 ≤ c.toNat ∧ c.toNat ≤ 0x7A then Char.ofNat (c.toNat - 0x20)
  else if 0x430 ≤ c.toNat ∧ c.toNat ≤ 0x44F then Char.ofNat (c.toNat - 0x20)
  else if c.toNat = 0x451 then Char.ofNat 0x401
  else c

/-- Python `str.lower()`. -/
def pyLower (s : String) : String :=
  ⟨s.data.map pyLowerChar⟩

/-- Python `str.upper()`. -/
def pyUpper (s : String) : String :=
  ⟨s.data.map pyUpperChar⟩

/-- Python `str.isdigit()` (ASCII decimal digits): nonempty and all digits. -/
def pyIsDigit (s : String) : Bool :=
  !s.data.isEmpty && s.data.all Char.isDigit

/-- Decimal value of a digit string, as computed by Python `int()` on a
pure-digit string. -/
def digitsToNat (l : List Char) : Nat :=
  l.foldl (fun acc c => 10 * acc + (c.toNat - 48)) 0

/-- Python `int(str)` on a character list: optional surrounding whitespace,
an optional sign, then one or more decimal digits; `none` on failure
(the `ValueError` path). -/
def pyIntL (l : List Char) : Option Int :=
  match stripChars l with
  | [] => none
  | c :: rest =>
      if c = '-' then
        if !rest.isEmpty && rest.all Char.isDigit then some (-(digitsToNat rest : Int)) else none
      else if c = '+' then
        if !rest.isEmpty && rest.all Char.isDigit then some (digitsToNat rest : Int) else none
      else if (c :: rest).all Char.isDigit then some (digitsToNat (c :: rest) : Int) else none

/-- Python `sep.split` with the single-character separator, exactly as
`season.split("/")` behaves. -/
def pySplitChar (sep : Char) : List Char → List (List Char)
  | [] => [[]]
  | c :: rest =>
      match pySplitChar sep rest with
      | [] => if c = sep then [[], []] else [[c]]
      | h :: t => if c = sep then [] :: h :: t else (c :: h) :: t

/-- `re.match(r"^-?\d+$", s)`: an optional leading minus sign followed by
one or more decimal digits (on already-stripped cell text). -/
def pmMatch (s : String) : Bool :=
  match s.data with
  | [] => false
  | c :: rest =>
      if c = '-' then !rest.isEmpty && rest.all Char.isDigit
      else (c :: rest).all Char.isDigit

/-- `int()` applied to a string accepted by the plus/minus regex. -/
def pmVal (s : String) : Int :=
  match s.data with
  | [] => 0
  | c :: rest =>
      if c = '-' then -(digitsToNat rest : Int)
      else (digitsToNat (c :: rest) : Int)

/-- Errors raised by the parser module: the explicit `ValueError`s of
`parse_html` / `_season_to_year`, and the fetcher's `HTTPError`. -/
inductive Err
  | tableNotFound
  | invalidSeasonFormat
  | fetchError
  deriving DecidableEq, Repr

/-- `PlayerStats` dataclass of `parser.py` (Python ints modelled as `Int`). -/
structure PlayerStats where
  name : String
  team : String
  team_abbr : String
  position : String
  points : Int
  goals : Int
  assists : Int
  games : Int
  plus_minus : Int
  penalty : Int
  deriving DecidableEq, Repr

/-- A table row: the raw text of its cells, in order. -/
abbrev Row := List String

/-- A table: its rows (the first is the header row). -/
abbrev Table := List Row

/-- A parsed HTML document: its table elements in document order. -/
abbrev Doc := List Table

/-- `int(cols[i]) if cols[i].isdigit() else 0` — the guarded parse used for
the five count columns. -/
def parseCount (s : String) : Int :=
  if pyIsDigit s then (digitsToNat s.data : Int) else 0

/-- `int(cols[9]) if re.match(r"^-?\d+$", cols[9]) else 0`. -/
def parsePlusMinus (s : String) : Int :=
  if pmMatch s then pmVal s else 0

/-- Field extraction of one table row from its stripped cells
(`parser.py` lines 157–181); total because every guarded `int()` call
succeeds whenever its guard holds. -/
def parseRowFields (cols : List String) : PlayerStats :=
  PlayerStats.mk (cols.getD 1 "") (cols.getD 2 "") (cols.getD 3 "") (cols.getD 4 "")
    (parseCount (cols.getD 5 "")) (parseCount (cols.getD 6 ""))
    (parseCount (cols.getD 7 "")) (parseCount (cols.getD 8 ""))
    (parsePlusMinus (cols.getD 9 "")) (parseCount (cols.getD 10 ""))

/-- One iteration of the row loop of `parse_html`: strip every cell, skip
the row when it has fewer than 12 cells, otherwise build a `PlayerStats`. -/
def parseRow (row : Row) : Option PlayerStats :=
  let cols := row.map pyStrip
  if cols.length < 12 then none else some (parseRowFields cols)

/-- The row loop of `parse_html` over a selected table: drop the header
row, convert the rest, skipping malformed rows. -/
def parseTable (t : Table) : List PlayerStats :=
  (t.drop 1).filterMap parseRow

/-- All cell texts of a table, stripped, in document order
(`candidate.find_all(["th", "td"])` with `get_text().strip()`). -/
def tableCells (t : Table) : List String :=
  t.flatten.map pyStrip

/-- `cells and "Игрок" in cells` — the table-selection test. -/
def tableHasLabel (t : Table) : Bool :=
  !(tableCells t).isEmpty && (tableCells t).contains "Игрок"

/-- The table-search loop of `parse_html`: first table whose cells contain
the player-name column label. -/
def findTable : Doc → Option Table
  | [] => none
  | t :: ts => if tableHasLabel t then some t else findTable ts

/-- `parse_html`: select the statistics table, raise `ValueError`
(`TableNotFound`) when there is none, otherwise parse its rows. -/
def parse_html (html : Doc) : Except Err (List PlayerStats) :=
  match findTable html with
  | none => Except.error Err.tableNotFound
  | some t => Except.ok (parseTable t)

/-- `_season_to_year`: `"start/end"` resolves via the part after the first
separator, a plain string parses directly; every failing `int()` is a
`ValueError` (`InvalidSeasonFormat`). -/
def season_to_year (season : String) : Except Err Int :=
  if season.data.contains '/' then
    match pyIntL ((pySplitChar '/' season.data).getD 1 []) with
    | some n => Except.ok n
    | none => Except.error Err.invalidSeasonFormat
  else
    match pyIntL season.data with
    | some n => Except.ok n
    | none => Except.error Err.invalidSeasonFormat

/-- The collection loop of `search_players`: append each prefix match to
the accumulator and stop as soon as `len(matches) >= limit`. -/
def searchGo (q : String) (limit : Int) : List PlayerStats → List PlayerStats → List PlayerStats
  | [], acc => acc
  | p :: ps, acc =>
      if q.data.isPrefixOf (pyLower p.name).data then
        let acc₁ := acc ++ [p]
        if limit ≤ (acc₁.length : Int) then acc₁ else searchGo q limit ps acc₁
      else searchGo q limit ps acc

/-- `search_players`: normalise the query (strip, lower), return `[]` on an
empty query, otherwise collect prefix matches in list order up to `limit`. -/
def search_players (query : String) (players : List PlayerStats) (limit : Int) : List PlayerStats :=
  let q := pyLower (pyStrip query)
  if q.data.isEmpty then [] else searchGo q limit players []

/-- The matching loop of `get_player_stats` (lines 228–232), over an
explicit target already normalised by `name.lower().strip()`. -/
def findGo (target : String) : List PlayerStats → Option PlayerStats
  | [] => none
  | p :: ps => if pyLower p.name = target then some p else findGo target ps

/-- The pure lookup of `get_player_stats`: first player whose lowered name
equals the lowered-then-stripped input name, else `None`. -/
def find_player_by_name (name : String) (players : List PlayerStats) : Option PlayerStats :=
  findGo (pyStrip (pyLower name)) players

/-- The `lru_cache(maxsize=10)` state on `get_players`: entries keyed by
the raw argument pair, most recently used first. -/
abbrev CacheKey := String × Bool

/-- Cache contents, most recently used entry at the head. -/
abbrev Cache := List (CacheKey × List PlayerStats)

/-- Cache lookup by key. -/
def cacheLookup (c : Cache) (k : CacheKey) : Option (List PlayerStats) :=
  (c.find? (fun e => decide (e.1 = k))).map (fun e => e.2)

/-- `get_players` under `lru_cache(maxsize=10)`, with the fetcher
(`fetch_html`, already HTML-parsed) passed as an oracle.  Returns the
result, the new cache state, and the number of fetches performed.  A hit
moves the entry to the front; a successful miss stores the fresh list,
evicting the oldest entry beyond 10; an exception caches nothing. -/
def get_players_cached (fetch : String → Bool → Except Err Doc) (c : Cache)
    (season : String) (playoff : Bool) :
    Except Err (List PlayerStats) × Cache × Nat :=
  match cacheLookup c (season, playoff) with
  | some v =>
      (Except.ok v, ((season, playoff), v) :: c.filter (fun e => decide (e.1 ≠ (season, playoff))), 0)
  | none =>
      match fetch season playoff with
      | Except.error e => (Except.error e, c, 1)
      | Except.ok doc =>
          match parse_html doc with
          | Except.error e => (Except.error e, c, 1)
          | Except.ok ps => (Except.ok ps, ((season, playoff), ps) :: c.take 9, 1)

/-- `get_player_stats`: fetch the (cached) player list and look the name up. -/
def get_player_stats (fetch : String → Bool → Except Err Doc) (c : Cache)
    (name : String) (season : String) (playoff : Bool) :
    Except Err (Option PlayerStats) × Cache × Nat :=
  match get_players_cached fetch c season playoff with
  | (Except.ok ps, c₁, n) => (Except.ok (find_player_by_name name ps), c₁, n)
  | (Except.error e, c₁, n) => (Except.error e, c₁, n)

/-! Character-level lemmas about the modelled Python string primitives. -/

theorem toNat_ofNat_valid (n : Nat) (h : n < 55296) : (Char.ofNat n).toNat = n := by
  have hv : n.isValidChar := Or.inl h
  simp [Char.ofNat, hv, Char.ofNatAux, Char.toNat, UInt32.toNat, BitVec.toNat_ofNatLt]

theorem pyLowerChar_space (c : Char) (h : pyIsSpace c = true) : pyLowerChar c = c := by
  simp only [pyIsSpace, Bool.or_eq_true, decide_eq_true_eq] at h
  rcases h with ((((h | h) | h) | h) | h) | h <;> subst h <;> rfl

theorem pyLowerChar_pyUpperChar (c : Char) : pyLowerChar (pyUpperChar c) = pyLowerChar c := by
  by_cases h₁ : 0x61 ≤ c.toNat ∧ c.toNat ≤ 0x7A
  · rw [pyUpperChar, if_pos h₁]
    have ht : (Char.ofNat (c.toNat - 0x20)).toNat = c.toNat - 0x20 :=
      toNat_ofNat_valid _ (by omega)
    have hL : pyLowerChar (Char.ofNat (c.toNat - 0x20)) = Char.ofNat (c.toNat - 0x20 + 0x20) := by
      simp only [pyLowerChar, ht]
      rw [if_pos (by omega)]
    have hR : pyLowerChar c = c := by
      rw [pyLowerChar, if_neg (by omega), if_neg (by omega), if_neg (by omega)]
    rw [hL, hR, show c.toNat - 0x20 + 0x20 = c.toNat by omega, Char.ofNat_toNat]
  · by_cases h₂ : 0x430 ≤ c.toNat ∧ c.toNat ≤ 0x44F
    · rw [pyUpperChar, if_neg h₁, if_pos h₂]
      have ht : (Char.ofNat (c.toNat - 0x20)).toNat = c.toNat - 0x20 :=
        toNat_ofNat_valid _ (by omega)
      have hL : pyLowerChar (Char.ofNat (c.toNat - 0x20)) = Char.ofNat (c.toNat - 0x20 + 0x20) := by
        simp only [pyLowerChar, ht]
        rw [if_neg (by omega), if_pos (by omega)]
      have hR : pyLowerChar c = c := by
        rw [pyLowerChar, if_neg (by omega), if_neg (by omega), if_neg (by omega)]
      rw [hL, hR, show c.toNat - 0x20 + 0x20 = c.toNat by omega, Char.ofNat_toNat]
    · by_cases h₃ : c.toNat = 0x451
      · rw [pyUpperChar, if_neg h₁, if_neg h₂, if_pos h₃]
        have ht : (Char.ofNat 0x401).toNat = 0x401 := toNat_ofNat_valid _ (by omega)
        have hL : pyLowerChar (Char.ofNat 0x401) = Char.ofNat 0x451 := by
          simp only [pyLowerChar, ht]
          rw [if_neg (by omega), if_neg (by omega)]
          simp
        have hR : pyLowerChar c = c := by
          rw [pyLowerChar, if_neg (by omega), if_neg (by omega), if_neg (by omega)]
        rw [hL, hR, show (0x451 : Nat) = c.toNat from h₃.symm, Char.ofNat_toNat]
      · rw [pyUpperChar, if_neg h₁, if_neg h₂, if_neg h₃]

theorem stripLeft_space_append (a l : List Char) (ha : a.all pyIsSpace = true) :
    stripLeft (a ++ l) = stripLeft l := by
  have : a.dropWhile pyIsSpace = [] := List.dropWhile_eq_nil_iff.mpr (by
    intro x hx
    exact List.all_eq_true.mp ha x hx)
  simp [stripLeft, List.dropWhile_append, this]

theorem stripRight_append_space (l b : List Char) (hb : b.all pyIsSpace = true) :
    stripRight (l ++ b) = stripRight l := by
  have hrev : b.reverse.all pyIsSpace = true := by
    simp only [List.all_eq_true] at hb ⊢
    intro x hx
    exact hb x (List.mem_reverse.mp hx)
  have : b.reverse.dropWhile pyIsSpace = [] := List.dropWhile_eq_nil_iff.mpr (by
    intro x hx
    exact List.all_eq_true.mp hrev x hx)
  simp [stripRight, List.reverse_append, List.dropWhile_append, this]

theorem stripChars_pad (a l b : List Char) (ha : a.all pyIsSpace = true)
    (hb : b.all pyIsSpace = true) : stripChars (a ++ l ++ b) = stripChars l := by
  rw [List.append_assoc]
  have h₁ : stripLeft (a ++ (l ++ b)) = stripLeft (l ++ b) :=
    stripLeft_space_append a (l ++ b) ha
  by_cases hc : l.dropWhile pyIsSpace = []
  · have hbnil : b.dropWhile pyIsSpace = [] := List.dropWhile_eq_nil_iff.mpr (by
      intro x hx
      exact List.all_eq_true.mp hb x hx)
    have h₂ : stripLeft (l ++ b) = [] := by
      simp [stripLeft, List.dropWhile_append, hc, hbnil]
    have h₃ : stripLeft l = [] := hc
    simp only [stripChars, h₁, h₂, h₃]
  · have h₂ : stripLeft (l ++ b) = stripLeft l ++ b := by
      simp [stripLeft, List.dropWhile_append, hc, List.isEmpty_iff]
    simp only [stripChars, h₁, h₂]
    exact stripRight_append_space _ _ hb

/-! Guard-equivalence lemmas for the numeric cell parsers. -/

theorem pyIsDigit_iff (s : String) :
    pyIsDigit s = true ↔ (s.data ≠ [] ∧ ∀ c ∈ s.data, c.isDigit = true) := by
  simp [pyIsDigit, List.all_eq_true, List.isEmpty_iff]

theorem parseCount_eq_spec (s : String) :
    parseCount s = if s.data ≠ [] ∧ ∀ c ∈ s.data, c.isDigit = true
      then (digitsToNat s.data : Int) else 0 := by
  rw [parseCount]
  by_cases hd : s.data ≠ [] ∧ ∀ c ∈ s.data, c.isDigit = true
  · rw [if_pos ((pyIsDigit_iff s).mpr hd), if_pos hd]
  · rw [if_neg (fun hc => hd ((pyIsDigit_iff s).mp hc)), if_neg hd]

theorem getD_map_pyStrip (row : List String) (i : Nat) :
    (row.map pyStrip).getD i "" = pyStrip (row.getD i "") := by
  have h := @List.getD_map String String row "" i pyStrip
  have h0 : pyStrip "" = "" := rfl
  rw [h0] at h
  exact h

theorem parseRow_isSome (row : Row) (h : 12 ≤ row.length) :
    parseRow row = some (parseRowFields (row.map pyStrip)) := by
  simp only [parseRow, List.length_map]
  rw [if_neg (by omega)]

/-- Claim C1: in every parsed table row, each of the five count fields of
the resulting record equals the decimal value of the corresponding cell
(indices 5, 6, 7, 8, 10) when that cell's text consists entirely of
decimal digits, and equals 0 for any other cell text (a minus sign is not
a digit, so a signed cell also yields 0); the row is still produced with
the defaulted value rather than dropped. -/
theorem parse_row_count_fields (row : Row) (h : 12 ≤ row.length) :
    ∃ ps, parseRow row = some ps ∧
      ps.points =
        (if (pyStrip (row.getD 5 "")).data ≠ [] ∧
            (∀ c ∈ (pyStrip (row.getD 5 "")).data, c.isDigit = true)
          then (digitsToNat (pyStrip (row.getD 5 "")).data : Int) else 0) ∧
      ps.goals =
        (if (pyStrip (row.getD 6 "")).data ≠ [] ∧
            (∀ c ∈ (pyStrip (row.getD 6 "")).data, c.isDigit = true)
          then (digitsToNat (pyStrip (row.getD 6 "")).data : Int) else 0) ∧
      ps.assists =
        (if (pyStrip (row.getD 7 "")).data ≠ [] ∧
            (∀ c ∈ (pyStrip (row.getD 7 "")).data, c.isDigit = true)
          then (digitsToNat (pyStrip (row.getD 7 "")).data : Int) else 0) ∧
      ps.games =
        (if (pyStrip (row.getD 8 "")).data ≠ [] ∧
            (∀ c ∈ (pyStrip (row.getD 8 "")).data, c.isDigit = true)
          then (digitsToNat (pyStrip (row.getD 8 "")).data : Int) else 0) ∧
      ps.penalty =
        (if (pyStrip (row.getD 10 "")).data ≠ [] ∧
            (∀ c ∈ (pyStrip (row.getD 10 "")).data, c.isDigit = true)
          then (digitsToNat (pyStrip (row.getD 10 "")).data : Int) else 0) := by
  refine ⟨parseRowFields (row.map pyStrip), parseRow_isSome row h, ?_, ?_, ?_, ?_, ?_⟩ <;>
    (simp only [parseRowFields]; rw [getD_map_pyStrip, parseCount_eq_spec])

/-- Concrete instance of the C1 theorem on a 12-cell row containing both
pure-digit cells and a signed cell. -/
theorem parse_row_count_fields_witness :
    ∃ ps, parseRow ["1", "Иванов", "Клуб", "КЛ", "Н",
        "44", "17", "27", "61", "-5", "12", "14:30"] = some ps ∧
      ps.points = 44 ∧ ps.goals = 17 ∧ ps.assists = 27 ∧ ps.games = 61 ∧ ps.penalty = 12 := by
  obtain ⟨ps, hps, h5, h6, h7, h8, h10⟩ :=
    parse_row_count_fields ["1", "Иванов", "Клуб", "КЛ", "Н",
      "44", "17", "27", "61", "-5", "12", "14:30"] (by decide)
  refine ⟨ps, hps, ?_, ?_, ?_, ?_, ?_⟩
  · rw [h5]; decide
  · rw [h6]; decide
  · rw [h7]; decide
  · rw [h8]; decide
  · rw [h10]; decide

/-- Claim C2: in every parsed table row, the `plus_minus` field of the
resulting record equals the signed integer value of cell index 9 when
that cell's text is an optional leading minus sign followed by one or
more decimal digits, and equals 0 for any other cell text. -/
theorem parse_row_plus_minus (row : Row) (h : 12 ≤ row.length) :
    ∃ ps, parseRow row = some ps ∧
      (∀ ds : List Char, ds ≠ [] → (∀ c ∈ ds, c.isDigit = true) →
        ((pyStrip (row.getD 9 "")).data = ds → ps.plus_minus = (digitsToNat ds : Int)) ∧
        ((pyStrip (row.getD 9 "")).data = '-' :: ds → ps.plus_minus = -(digitsToNat ds : Int))) ∧
      ((∀ ds : List Char, ds ≠ [] → (∀ c ∈ ds, c.isDigit = true) →
          (pyStrip (row.getD 9 "")).data ≠ ds ∧ (pyStrip (row.getD 9 "")).data ≠ '-' :: ds) →
        ps.plus_minus = 0) := by
  have hpm : (parseRowFields (row.map pyStrip)).plus_minus =
      parsePlusMinus (pyStrip (row.getD 9 "")) := by
    simp only [parseRowFields]
    rw [getD_map_pyStrip]
  refine ⟨parseRowFields (row.map pyStrip), parseRow_isSome row h, ?_, ?_⟩
  · intro ds hne hdig
    constructor
    · intro hs
      rcases ds with _ | ⟨d, t⟩
      · exact absurd rfl hne
      have hd : d.isDigit = true := hdig d (List.mem_cons_self d t)
      have hdm : d ≠ '-' := by
        intro e
        rw [e] at hd
        exact absurd hd (by decide)
      have hm : pmMatch (pyStrip (row.getD 9 "")) = true := by
        simp only [pmMatch, hs]
        rw [if_neg hdm]
        exact List.all_eq_true.mpr hdig
      have hv : pmVal (pyStrip (row.getD 9 "")) = (digitsToNat (d :: t) : Int) := by
        simp only [pmVal, hs]
        rw [if_neg hdm]
      rw [hpm, parsePlusMinus, hm, if_pos rfl, hv]
    · intro hs
      have hm : pmMatch (pyStrip (row.getD 9 "")) = true := by
        simp only [pmMatch, hs]
        rw [if_pos trivial]
        simp only [Bool.and_eq_true, Bool.not_eq_true', List.isEmpty_eq_false_iff_exists_mem]
        exact ⟨List.exists_mem_of_ne_nil ds hne, List.all_eq_true.mpr hdig⟩
      have hv : pmVal (pyStrip (row.getD 9 "")) = -(digitsToNat ds : Int) := by
        simp only [pmVal, hs]
        rw [if_pos trivial]
      rw [hpm, parsePlusMinus, hm, if_pos rfl, hv]
  · intro hno
    have hm : pmMatch (pyStrip (row.getD 9 "")) = false := by
      rcases hsd : (pyStrip (row.getD 9 "")).data with _ | ⟨d, t⟩
      · simp only [pmMatch]
        rw [hsd]
      by_cases hdm : d = '-'
      · subst hdm
        simp only [pmMatch, hsd, if_pos trivial]
        by_cases hb : (!t.isEmpty && t.all Char.isDigit) = true
        · exfalso
          simp only [Bool.and_eq_true, Bool.not_eq_true', List.isEmpty_eq_false_iff_exists_mem,
            List.all_eq_true] at hb
          have htne : t ≠ [] := by
            rcases hb.1 with ⟨x, hx⟩
            intro e
            rw [e] at hx
            exact absurd hx (List.not_mem_nil x)
          exact (hno t htne hb.2).2 hsd
        · exact Bool.eq_false_iff.mpr (fun hc => hb hc)
      · simp only [pmMatch, hsd]
        rw [if_neg hdm]
        by_cases hb : (d :: t).all Char.isDigit = true
        · exfalso
          exact (hno (d :: t) (by simp) (List.all_eq_true.mp hb)).1 hsd
        · exact Bool.eq_false_iff.mpr (fun hc => hb hc)
    rw [hpm, parsePlusMinus, hm]
    simp

/-- Concrete instance of the C2 theorem: a signed cell parses to the
signed value, evaluated on a 12-cell row whose cell 9 is `"-5"`. -/
theorem parse_row_plus_minus_witness :
    ∃ ps, parseRow ["1", "Иванов", "Клуб", "КЛ", "Н",
        "44", "17", "27", "61", "-5", "12", "14:30"] = some ps ∧
      ps.plus_minus = -5 := by
  obtain ⟨ps, hps, hmatch, hfail⟩ :=
    parse_row_plus_minus ["1", "Иванов", "Клуб", "КЛ", "Н",
      "44", "17", "27", "61", "-5", "12", "14:30"] (by decide)
  refine ⟨ps, hps, ?_⟩
  have h := (hmatch ['5'] (by decide) (by decide)).2 (by decide)
  rw [h]
  decide

theorem parseRow_eq_none (row : Row) (h : row.length < 12) : parseRow row = none := by
  simp only [parseRow, List.length_map]
  rw [if_pos h]

theorem filterMap_parseRow_eq (rows : List Row) :
    rows.filterMap parseRow =
      (rows.filter (fun r => decide (12 ≤ r.length))).map
        (fun r => parseRowFields (r.map pyStrip)) := by
  induction rows with
  | nil => rfl
  | cons r rs ih =>
    by_cases hr : 12 ≤ r.length
    · rw [List.filterMap_cons, parseRow_isSome r hr]
      simp [List.filter_cons, hr, ih]
    · rw [List.filterMap_cons, parseRow_eq_none r (by omega)]
      simp [List.filter_cons, hr, ih]

/-- Claim C3: the parser keeps exactly the non-header rows with at least
12 cells, each such row yields its record independently of malformed
rows, the output keeps the original row order, and inserting a short row
anywhere leaves the other rows' records unchanged. -/
theorem parse_table_row_isolation (hdr : Row) (rows : List Row) :
    parseTable (hdr :: rows) =
      (rows.filter (fun r => decide (12 ≤ r.length))).map
        (fun r => parseRowFields (r.map pyStrip)) ∧
    ∀ (l₁ l₂ : List Row) (bad : Row), bad.length < 12 →
      parseTable (hdr :: (l₁ ++ bad :: l₂)) = parseTable (hdr :: (l₁ ++ l₂)) := by
  constructor
  · simp only [parseTable, List.drop_succ_cons, List.drop_zero]
    exact filterMap_parseRow_eq rows
  · intro l₁ l₂ bad hbad
    simp only [parseTable, List.drop_succ_cons, List.drop_zero]
    rw [List.filterMap_append, List.filterMap_append, List.filterMap_cons,
      parseRow_eq_none bad hbad]

def hdrSample : Row :=
  ["№", "Игрок", "Команда", "Ком", "Амп", "О", "Ш", "А", "И", "+/-", "Штр", "БВ"]

def rowA : Row := ["1", "Иванов", "Клуб", "КЛ", "Н", "44", "17", "27", "61", "5", "12", "90"]

def rowB : Row := ["2", "Петров", "Клуб", "КЛ", "З", "30", "10", "20", "60", "-2", "8", "70"]

def rowC : Row := ["3", "Сидоров", "Клуб", "КЛ", "В", "25", "5", "20", "55", "0", "4", "50"]

def badRow : Row := ["4", "Обрыв", "Клуб", "КЛ", "Н"]

/-- Concrete instance of the C3 theorem: a header, three 12-cell rows and
one 5-cell row yield exactly the three valid records in row order. -/
theorem parse_table_row_isolation_witness :
    parseTable [hdrSample, rowA, rowB, badRow, rowC] =
      parseTable [hdrSample, rowA, rowB, rowC] ∧
    (parseTable [hdrSample, rowA, rowB, badRow, rowC]).length = 3 := by
  constructor
  · exact (parse_table_row_isolation hdrSample [rowA, rowB, badRow, rowC]).2
      [rowA, rowB] [rowC] badRow (by decide)
  · decide

theorem tableHasLabel_iff (t : Table) :
    tableHasLabel t = true ↔ "Игрок" ∈ tableCells t := by
  simp only [tableHasLabel, Bool.and_eq_true, Bool.not_eq_true',
    List.isEmpty_eq_false_iff_exists_mem, List.elem_iff]
  constructor
  · exact fun h => h.2
  · exact fun h => ⟨⟨_, h⟩, h⟩

theorem findTable_none_iff (doc : Doc) :
    findTable doc = none ↔ ∀ t ∈ doc, "Игрок" ∉ tableCells t := by
  induction doc with
  | nil => simp [findTable]
  | cons t ts ih =>
    simp only [findTable]
    by_cases h : tableHasLabel t = true
    · rw [if_pos h]
      constructor
      · intro hc
        exact absurd hc (by simp)
      · intro hall
        exact absurd ((tableHasLabel_iff t).mp h) (hall t (List.mem_cons_self t ts))
    · rw [if_neg h, ih]
      simp only [List.forall_mem_cons]
      constructor
      · intro hts
        refine ⟨fun hc => h ((tableHasLabel_iff t).mpr hc), hts⟩
      · exact fun hx => hx.2

theorem findTable_first (pre post : Doc) (t : Table) (ht : tableHasLabel t = true)
    (hpre : ∀ u ∈ pre, tableHasLabel u = false) :
    findTable (pre ++ t :: post) = some t := by
  induction pre with
  | nil =>
    simp only [List.nil_append, findTable]
    rw [if_pos ht]
  | cons u us ih =>
    simp only [List.cons_append, findTable]
    rw [if_neg]
    · exact ih (fun v hv => hpre v (List.mem_cons_of_mem u hv))
    · simp [hpre u (List.mem_cons_self u us)]

/-- Claim C4: `parse_html` fails with the table-not-found error exactly
when no table's cell texts contain the label `"Игрок"`, and otherwise
parses the first table in document order whose cells contain it. -/
theorem parse_html_first_table (doc : Doc) :
    (parse_html doc = Except.error Err.tableNotFound ↔
      ∀ t ∈ doc, "Игрок" ∉ tableCells t) ∧
    (∀ (pre post : Doc) (t : Table), doc = pre ++ t :: post →
      "Игрок" ∈ tableCells t → (∀ u ∈ pre, "Игрок" ∉ tableCells u) →
      parse_html doc = Except.ok (parseTable t)) := by
  constructor
  · rw [← findTable_none_iff]
    constructor
    · intro h
      rcases hf : findTable doc with _ | t
      · rfl
      · rw [parse_html, hf] at h
        exact absurd h (by simp)
    · intro h
      rw [parse_html, h]
  · intro pre post t hdoc hlabel hpre
    subst hdoc
    rw [parse_html, findTable_first pre post t ((tableHasLabel_iff t).mpr hlabel)
      (fun u hu => Bool.eq_false_iff.mpr (fun hc => hpre u hu ((tableHasLabel_iff u).mp hc)))]

def tblPlain : Table := [["Фу", "Бар"]]

def tblStats : Table := [hdrSample, rowA, rowB, badRow, rowC]

/-- Concrete instance of the C4 theorem: with a non-matching table before
the statistics table, the second table is selected and parsed. -/
theorem parse_html_first_table_witness :
    parse_html [tblPlain, tblStats] = Except.ok (parseTable tblStats) := by
  exact (parse_html_first_table [tblPlain, tblStats]).2 [tblPlain] [] tblStats rfl
    (by decide) (by decide)

theorem pySplitChar_ne_nil (sep : Char) (l : List Char) : pySplitChar sep l ≠ [] := by
  cases l with
  | nil => simp [pySplitChar]
  | cons c rest =>
    simp only [pySplitChar]
    rcases pySplitChar sep rest with _ | ⟨h, t⟩ <;> by_cases hc : c = sep <;>
      simp [hc]

theorem pySplitChar_no_sep (sep : Char) (l : List Char) (h : sep ∉ l) :
    pySplitChar sep l = [l] := by
  induction l with
  | nil => rfl
  | cons c rest ih =>
    have hc : c ≠ sep := fun e => h (e ▸ List.mem_cons_self c rest)
    have hr : sep ∉ rest := fun e => h (List.mem_cons_of_mem c e)
    simp only [pySplitChar, ih hr]
    rw [if_neg hc]

theorem pySplitChar_append (sep : Char) (a b : List Char) (ha : sep ∉ a) :
    pySplitChar sep (a ++ sep :: b) = a :: pySplitChar sep b := by
  induction a with
  | nil =>
    simp only [List.nil_append, pySplitChar]
    rcases hb : pySplitChar sep b with _ | ⟨h, t⟩
    · exact absurd hb (pySplitChar_ne_nil sep b)
    · simp
  | cons c a₁ ih =>
    have hc : c ≠ sep := fun e => ha (e ▸ List.mem_cons_self c a₁)
    have ha₁ : sep ∉ a₁ := fun e => ha (List.mem_cons_of_mem c e)
    simp only [List.cons_append, pySplitChar, List.append_eq, ih ha₁]
    rw [if_neg hc]

/-- Claim C5: a `"start/end"` identifier resolves to the integer value of
the part after the separator, a plain identifier parses directly, and
every identifier whose relevant part fails integer parsing yields the
invalid-season error; in particular `"2024/2025"` and `"2025"` resolve to
2025 and `"bad"` fails. -/
theorem season_to_year_resolution :
    season_to_year "2024/2025" = Except.ok 2025 ∧
    season_to_year "2025" = Except.ok 2025 ∧
    season_to_year "bad" = Except.error Err.invalidSeasonFormat ∧
    (∀ a b : String, '/' ∉ a.data → '/' ∉ b.data →
      season_to_year (a ++ "/" ++ b) =
        match pyIntL b.data with
        | some n => Except.ok n
        | none => Except.error Err.invalidSeasonFormat) ∧
    (∀ s : String, '/' ∉ s.data →
      season_to_year s =
        match pyIntL s.data with
        | some n => Except.ok n
        | none => Except.error Err.invalidSeasonFormat) := by
  refine ⟨rfl, rfl, rfl, ?_, ?_⟩
  · intro a b ha hb
    have hdata : (a ++ "/" ++ b).data = a.data ++ '/' :: b.data := by
      rw [String.data_append, String.data_append]
      rw [show ("/" : String).data = ['/'] from rfl, List.append_assoc]
      rfl
    have hcon : (a ++ "/" ++ b).data.contains '/' = true :=
      List.elem_iff.mpr (by
        rw [hdata]
        exact List.mem_append.mpr (Or.inr (List.mem_cons_self _ _)))
    simp only [season_to_year, hdata] at hcon ⊢
    rw [if_pos hcon, pySplitChar_append '/' a.data b.data ha,
      pySplitChar_no_sep '/' b.data hb]
    rfl
  · intro s hs
    have hcon : s.data.contains '/' = false :=
      Bool.eq_false_iff.mpr (fun hc => hs (List.elem_iff.mp hc))
    simp only [season_to_year]
    rw [if_neg (by rw [hcon]; exact Bool.false_ne_true)]

/-- Concrete instance of the C5 theorem's general two-year clause:
`"2023" ++ "/" ++ "2024"` resolves to 2024. -/
theorem season_to_year_resolution_witness :
    season_to_year ("2023" ++ "/" ++ "2024") = Except.ok 2024 := by
  have h := season_to_year_resolution.2.2.2.1 "2023" "2024" (by decide) (by decide)
  rw [h]
  rfl

theorem searchGo_eq_take (q : String) (limit : Int) (ps : List PlayerStats) :
    ∀ acc : List PlayerStats, (acc.length : Int) < limit →
      searchGo q limit ps acc =
        acc ++ (ps.filter (fun p => q.data.isPrefixOf (pyLower p.name).data)).take
          (limit - acc.length).toNat := by
  induction ps with
  | nil =>
    intro acc h
    simp [searchGo]
  | cons p ps ih =>
    intro acc h
    simp only [searchGo, List.filter_cons]
    by_cases hp : q.data.isPrefixOf (pyLower p.name).data = true
    · rw [if_pos hp, if_pos hp]
      by_cases hl : limit ≤ ((acc ++ [p]).length : Int)
      · rw [if_pos hl]
        have h1 : (limit - (acc.length : Int)).toNat = 1 := by
          rw [List.length_append] at hl
          simp only [List.length_cons, List.length_nil] at hl
          omega
        rw [h1, List.take_succ_cons, List.take_zero]
      · rw [if_neg hl]
        rw [List.length_append] at hl
        simp only [List.length_cons, List.length_nil] at hl
        have h2 : (((acc ++ [p]).length : Int)) < limit := by
          rw [List.length_append]
          simp only [List.length_cons, List.length_nil]
          omega
        rw [ih (acc ++ [p]) h2]
        have h3 : (limit - ((acc ++ [p]).length : Int)).toNat + 1 =
            (limit - (acc.length : Int)).toNat := by
          rw [List.length_append]
          simp only [List.length_cons, List.length_nil]
          omega
        rw [← h3, List.take_succ_cons, List.append_assoc]
        rfl
    · rw [if_neg hp, if_neg hp]
      exact ih acc h

/-- Claim C6 (amended): for every query, player list and limit of at
least 1, `search_players` returns the empty list on an empty (after
trimming) query, and otherwise exactly the first `limit` prefix matches,
in stored list order. -/
theorem search_players_spec (query : String) (players : List PlayerStats) (limit : Int)
    (hl : 1 ≤ limit) :
    search_players query players limit =
      if (pyLower (pyStrip query)).data.isEmpty then []
      else (players.filter
        (fun p => (pyLower (pyStrip query)).data.isPrefixOf (pyLower p.name).data)).take
          limit.toNat := by
  simp only [search_players]
  by_cases hq : (pyLower (pyStrip query)).data.isEmpty = true
  · rw [if_pos hq, if_pos hq]
  · rw [if_neg hq, if_neg hq]
    have h0 : ((([] : List PlayerStats)).length : Int) < limit := by
      simp only [List.length_nil]
      omega
    rw [searchGo_eq_take (pyLower (pyStrip query)) limit players [] h0]
    simp only [List.length_nil, List.nil_append]
    rw [show ((limit : Int) - ((0 : Nat) : Int)) = limit by omega]

def pIvanov : PlayerStats := PlayerStats.mk "Иванов" "Клуб" "КЛ" "Н" 44 17 27 61 5 12

def pIglin : PlayerStats := PlayerStats.mk "Иглин" "Клуб" "КЛ" "З" 30 10 20 60 (-2) 8

/-- Claim C6 counterexample: with result limit 0 and one matching player,
`search_players` still returns that player, so the result exceeds the
limit — the appended match is only length-checked afterwards. -/
theorem search_players_limit_zero_cex :
    search_players "и" [pIvanov] 0 = [pIvanov] ∧
    ¬ ((search_players "и" [pIvanov] 0).length ≤ 0) := by
  constructor
  · rfl
  · decide

/-- Concrete instance of the amended C6 theorem: limit 1 with two
matching players returns only the first, in list order. -/
theorem search_players_spec_witness :
    search_players "и" [pIvanov, pIglin] 1 = [pIvanov] := by
  have h := search_players_spec "и" [pIvanov, pIglin] 1 (by decide)
  rw [h]
  rfl

theorem map_pyLowerChar_space (l : List Char) (h : l.all pyIsSpace = true) :
    l.map pyLowerChar = l := by
  induction l with
  | nil => rfl
  | cons c t ih =>
    simp only [List.all_cons, Bool.and_eq_true] at h
    simp [List.map_cons, pyLowerChar_space c h.1, ih h.2]

theorem findGo_eq_find (target : String) (players : List PlayerStats) :
    findGo target players = players.find? (fun p => decide (pyLower p.name = target)) := by
  induction players with
  | nil => rfl
  | cons p ps ih =>
    by_cases h : pyLower p.name = target
    · simp [findGo, List.find?_cons, h]
    · simp [findGo, List.find?_cons, h, ih]

theorem pyLower_pad (pad₁ name pad₂ : String) (h₁ : pad₁.data.all pyIsSpace = true)
    (h₂ : pad₂.data.all pyIsSpace = true) :
    pyStrip (pyLower (pad₁ ++ name ++ pad₂)) = pyStrip (pyLower name) := by
  have hdata : (pad₁ ++ name ++ pad₂).data = pad₁.data ++ name.data ++ pad₂.data := by
    rw [String.data_append, String.data_append]
  have hmap : (pyLower (pad₁ ++ name ++ pad₂)).data =
      pad₁.data ++ (pyLower name).data ++ pad₂.data := by
    simp only [pyLower, hdata, List.map_append]
    rw [map_pyLowerChar_space pad₁.data h₁, map_pyLowerChar_space pad₂.data h₂]
  simp only [pyStrip, hmap]
  rw [stripChars_pad pad₁.data (pyLower name).data pad₂.data h₁ h₂]

theorem pyLower_pyUpper (name : String) : pyLower (pyUpper name) = pyLower name := by
  simp only [pyLower, pyUpper, List.map_map]
  rw [show pyLowerChar ∘ pyUpperChar = pyLowerChar from funext pyLowerChar_pyUpperChar]

/-- Claim C7: the lookup returns the first player in list order whose
lowered name equals the lowered-and-trimmed input name, returns `none`
exactly when no player matches, and an input differing only by letter
case or leading/trailing whitespace produces the same lookup result. -/
theorem find_player_lookup (name : String) (players : List PlayerStats) :
    find_player_by_name name players =
      players.find? (fun p => decide (pyLower p.name = pyStrip (pyLower name))) ∧
    (find_player_by_name name players = none ↔
      ∀ p ∈ players, pyLower p.name ≠ pyStrip (pyLower name)) ∧
    (∀ pad₁ pad₂ : String, pad₁.data.all pyIsSpace = true → pad₂.data.all pyIsSpace = true →
      find_player_by_name (pad₁ ++ name ++ pad₂) players =
        find_player_by_name name players) ∧
    find_player_by_name (pyUpper name) players = find_player_by_name name players := by
  refine ⟨findGo_eq_find _ players, ?_, ?_, ?_⟩
  · rw [find_player_by_name, findGo_eq_find, List.find?_eq_none]
    simp
  · intro pad₁ pad₂ h₁ h₂
    simp only [find_player_by_name]
    rw [pyLower_pad pad₁ name pad₂ h₁ h₂]
  · simp only [find_player_by_name]
    rw [pyLower_pyUpper]

/-- Concrete instance of the C7 theorem: padded and upper-cased inputs
still find the stored player. -/
theorem find_player_lookup_witness :
    find_player_by_name ("  " ++ "иванов" ++ " ") [pIvanov] =
      find_player_by_name "иванов" [pIvanov] ∧
    find_player_by_name "иванов" [pIvanov] = some pIvanov := by
  constructor
  · exact (find_player_lookup "иванов" [pIvanov]).2.2.1 "  " " " (by decide) (by decide)
  · rfl


theorem cacheLookup_cons_self (k : CacheKey) (v : List PlayerStats) (c : Cache) :
    cacheLookup ((k, v) :: c) k = some v := by
  simp [cacheLookup, List.find?_cons]

theorem cacheLookup_none_iff (c : Cache) (k : CacheKey) :
    cacheLookup c k = none ↔ ∀ e ∈ c, e.1 ≠ k := by
  simp [cacheLookup, List.find?_eq_none]

theorem get_players_cached_hit (fetch : String → Bool → Except Err Doc) (c : Cache)
    (s : String) (p : Bool) (v : List PlayerStats) (hl : cacheLookup c (s, p) = some v) :
    get_players_cached fetch c s p =
      (Except.ok v, ((s, p), v) :: c.filter (fun e => decide (e.1 ≠ (s, p))), 0) := by
  simp only [get_players_cached, hl]

theorem get_players_cached_fetch_err (fetch : String → Bool → Except Err Doc) (c : Cache)
    (s : String) (p : Bool) (e : Err) (hl : cacheLookup c (s, p) = none)
    (hf : fetch s p = Except.error e) :
    get_players_cached fetch c s p = (Except.error e, c, 1) := by
  simp only [get_players_cached, hl, hf]

theorem get_players_cached_parse_err (fetch : String → Bool → Except Err Doc) (c : Cache)
    (s : String) (p : Bool) (doc : Doc) (e : Err) (hl : cacheLookup c (s, p) = none)
    (hf : fetch s p = Except.ok doc) (hp : parse_html doc = Except.error e) :
    get_players_cached fetch c s p = (Except.error e, c, 1) := by
  simp only [get_players_cached, hl, hf, hp]

theorem get_players_cached_store (fetch : String → Bool → Except Err Doc) (c : Cache)
    (s : String) (p : Bool) (doc : Doc) (ps : List PlayerStats)
    (hl : cacheLookup c (s, p) = none) (hf : fetch s p = Except.ok doc)
    (hp : parse_html doc = Except.ok ps) :
    get_players_cached fetch c s p = (Except.ok ps, ((s, p), ps) :: c.take 9, 1) := by
  simp only [get_players_cached, hl, hf, hp]

/-- Claim C8: a successful `get_players` call leaves the list cached, so
an immediately following call with the same season key is served from the
cache — it returns the same list and performs no fetch; and the first
call performs exactly one fetch when its key was uncached. -/
theorem get_players_cache_hit (fetch : String → Bool → Except Err Doc) (c : Cache)
    (s : String) (p : Bool) (ps : List PlayerStats) (c₁ : Cache) (n : Nat)
    (h : get_players_cached fetch c s p = (Except.ok ps, c₁, n)) :
    (cacheLookup c (s, p) = none → n = 1) ∧
    ∃ c₂, get_players_cached fetch c₁ s p = (Except.ok ps, c₂, 0) := by
  rcases hl : cacheLookup c (s, p) with _ | v
  · rcases hf : fetch s p with e | doc
    · rw [get_players_cached_fetch_err fetch c s p e hl hf] at h
      simp at h
    · rcases hp : parse_html doc with e | ps₁
      · rw [get_players_cached_parse_err fetch c s p doc e hl hf hp] at h
        simp at h
      · rw [get_players_cached_store fetch c s p doc ps₁ hl hf hp] at h
        simp only [Prod.mk.injEq, Except.ok.injEq] at h
        refine ⟨fun _ => h.2.2.symm, _,
          get_players_cached_hit fetch c₁ s p ps ?_⟩
        rw [← h.2.1, ← h.1]
        exact cacheLookup_cons_self (s, p) ps₁ (c.take 9)
  · rw [get_players_cached_hit fetch c s p v hl] at h
    simp only [Prod.mk.injEq, Except.ok.injEq] at h
    refine ⟨fun hnone => Option.noConfusion hnone, _,
      get_players_cached_hit fetch c₁ s p ps ?_⟩
    rw [← h.2.1, ← h.1]
    exact cacheLookup_cons_self (s, p) v (c.filter (fun e => decide (e.1 ≠ (s, p))))

def fetchSample : String → Bool → Except Err Doc := fun _ _ => Except.ok [tblStats]

def psSample : List PlayerStats := parseTable tblStats

def cacheSample : Cache := [(("2025", false), psSample)]

/-- Concrete instance of the C8 theorem: a first call on an empty cache
fetches once; the follow-up call is a hit with zero fetches. -/
theorem get_players_cache_hit_witness :
    (cacheLookup ([] : Cache) ("2025", false) = none → (1 : Nat) = 1) ∧
    ∃ c₂, get_players_cached fetchSample cacheSample "2025" false =
      (Except.ok psSample, c₂, 0) :=
  get_players_cache_hit fetchSample [] "2025" false psSample cacheSample 1 rfl

/-- Claim C9: a failed `get_players` call (fetch or parse error) leaves
the cache exactly as it was — the failing key was and remains uncached,
so the next call with that key performs a fetch again; no empty or
partial list is ever cached by a failure. -/
theorem get_players_error_uncached (fetch : String → Bool → Except Err Doc) (c : Cache)
    (s : String) (p : Bool) (e : Err) (c₁ : Cache) (n : Nat)
    (h : get_players_cached fetch c s p = (Except.error e, c₁, n)) :
    c₁ = c ∧ cacheLookup c (s, p) = none ∧ n = 1 ∧
    (get_players_cached fetch c₁ s p).2.2 = 1 := by
  rcases hl : cacheLookup c (s, p) with _ | v
  · rcases hf : fetch s p with e₁ | doc
    · rw [get_players_cached_fetch_err fetch c s p e₁ hl hf] at h
      simp only [Prod.mk.injEq, Except.error.injEq] at h
      refine ⟨h.2.1.symm, rfl, h.2.2.symm, ?_⟩
      rw [h.2.1.symm, get_players_cached_fetch_err fetch c s p e₁ hl hf]
    · rcases hp : parse_html doc with e₂ | ps₁
      · rw [get_players_cached_parse_err fetch c s p doc e₂ hl hf hp] at h
        simp only [Prod.mk.injEq, Except.error.injEq] at h
        refine ⟨h.2.1.symm, rfl, h.2.2.symm, ?_⟩
        rw [h.2.1.symm, get_players_cached_parse_err fetch c s p doc e₂ hl hf hp]
      · rw [get_players_cached_store fetch c s p doc ps₁ hl hf hp] at h
        simp at h
  · rw [get_players_cached_hit fetch c s p v hl] at h
    simp at h

def fetchFail : String → Bool → Except Err Doc := fun _ _ => Except.error Err.fetchError

/-- Concrete instance of the C9 theorem: a failing fetch on an empty
cache stores nothing and the retry fetches again. -/
theorem get_players_error_uncached_witness :
    ([] : Cache) = [] ∧ cacheLookup ([] : Cache) ("2025", false) = none ∧ (1 : Nat) = 1 ∧
    (get_players_cached fetchFail ([] : Cache) "2025" false).2.2 = 1 :=
  get_players_error_uncached fetchFail [] "2025" false Err.fetchError [] 1 rfl

theorem get_players_count_one_of_uncached (fetch : String → Bool → Except Err Doc)
    (c : Cache) (s : String) (p : Bool) (h : cacheLookup c (s, p) = none) :
    (get_players_cached fetch c s p).2.2 = 1 := by
  rcases hf : fetch s p with e | doc
  · rw [get_players_cached_fetch_err fetch c s p e h hf]
  · rcases hp : parse_html doc with e | ps
    · rw [get_players_cached_parse_err fetch c s p doc e h hf hp]
    · rw [get_players_cached_store fetch c s p doc ps h hf hp]

/-- Claim C10 counterexample: `"2025"` and `"2024/2025"` resolve to the
same season year, yet after a successful call with `"2025"` a call with
`"2024/2025"` still performs a network fetch and the cache ends up
holding two distinct entries — the cache is keyed by the raw string. -/
theorem get_players_resolved_key_cex :
    season_to_year "2025" = season_to_year "2024/2025" ∧
    (get_players_cached fetchSample [] "2025" false).2.2 = 1 ∧
    (get_players_cached fetchSample
      ((get_players_cached fetchSample [] "2025" false).2.1) "2024/2025" false).2.2 = 1 ∧
    ((get_players_cached fetchSample
      ((get_players_cached fetchSample [] "2025" false).2.1) "2024/2025" false).2.1).length =
      2 := by
  refine ⟨rfl, rfl, rfl, rfl⟩

/-- Claim C10 (amended): the season cache is keyed by the raw
(season string, playoff flag) argument pair rather than the resolved
ending-year integer, so after a successful call with one spelling a
differently spelled identifier of the same resolved season is still
uncached and a call with it issues a new network fetch. -/
theorem get_players_raw_key (fetch : String → Bool → Except Err Doc) (c : Cache)
    (s₁ s₂ : String) (p : Bool) (ps : List PlayerStats) (c₁ : Cache) (n : Nat)
    (hne : s₁ ≠ s₂) (hyear : season_to_year s₁ = season_to_year s₂)
    (hl₂ : cacheLookup c (s₂, p) = none)
    (h : get_players_cached fetch c s₁ p = (Except.ok ps, c₁, n)) :
    cacheLookup c₁ (s₂, p) = none ∧ (get_players_cached fetch c₁ s₂ p).2.2 = 1 := by
  have hkey : ((s₁, p) : CacheKey) ≠ (s₂, p) := fun e => hne (congrArg Prod.fst e)
  have hnone : cacheLookup c₁ (s₂, p) = none := by
    rcases hl₁ : cacheLookup c (s₁, p) with _ | v
    · rcases hf : fetch s₁ p with e | doc
      · rw [get_players_cached_fetch_err fetch c s₁ p e hl₁ hf] at h
        simp at h
      · rcases hp : parse_html doc with e | ps₁
        · rw [get_players_cached_parse_err fetch c s₁ p doc e hl₁ hf hp] at h
          simp at h
        · rw [get_players_cached_store fetch c s₁ p doc ps₁ hl₁ hf hp] at h
          simp only [Prod.mk.injEq, Except.ok.injEq] at h
          rw [← h.2.1, cacheLookup_none_iff]
          intro e he
          rcases List.mem_cons.mp he with he₁ | he₂
          · rw [he₁]
            exact hkey
          · exact (cacheLookup_none_iff c (s₂, p)).mp hl₂ e (List.take_subset 9 c he₂)
    · rw [get_players_cached_hit fetch c s₁ p v hl₁] at h
      simp only [Prod.mk.injEq, Except.ok.injEq] at h
      rw [← h.2.1, cacheLookup_none_iff]
      intro e he
      rcases List.mem_cons.mp he with he₁ | he₂
      · rw [he₁]
        exact hkey
      · exact (cacheLookup_none_iff c (s₂, p)).mp hl₂ e (List.mem_of_mem_filter he₂)
  exact ⟨hnone, get_players_count_one_of_uncached fetch c₁ s₂ p hnone⟩

/-- Concrete instance of the amended C10 theorem: after caching
`"2025"`, the spelling `"2024/2025"` of the same season is uncached and
fetches anew. -/
theorem get_players_raw_key_witness :
    cacheLookup cacheSample ("2024/2025", false) = none ∧
    (get_players_cached fetchSample cacheSample "2024/2025" false).2.2 = 1 :=
  get_players_raw_key fetchSample [] "2025" "2024/2025" false psSample cacheSample 1
    (by decide) rfl rfl rfl
